import Mathlib

/-!
Verification of the catalog aggregation engine and menu dispatcher of the
`FortniteShopBot` Telegram bot (`src/bot/bot.py`).

The Python code is shallowly embedded: dictionaries that the code reads
through fixed keys become structures with `Option` fields (a `none` field
models an absent key), the mutable `self.last_shop_data` attribute becomes
an explicit `BotState` record threaded through the handlers, and the
network call of `get_shop_data` becomes an explicit `Origin` argument
describing the outcome of the HTTP request.  Python `float` arithmetic on
money amounts (`round(x, 2)`, `f"{x:.2f}"`) is embedded exactly over
scaled integers (hundredths, i.e. kopecks), with Python's banker's
rounding (`round-half-to-even`); `datetime.now()` is passed in as a
string parameter.
-/

namespace FortniteShopBot

/-! Section: Python string primitives -/

/-- Python `str.lower()`, restricted to ASCII case folding.  Python also
folds non-ASCII letters (e.g. Cyrillic); no proved statement relies on
that: the case-insensitivity statements are parametric in `pyLower`, and
every concrete name and query they evaluate is ASCII. -/
def pyLower (s : String) : String := ⟨s.data.map Char.toLower⟩

/-- Tests whether `needle` occurs at the start of `hay` (over raw character lists). -/
def leadsWith : List Char → List Char → Bool
  | [], _ => true
  | _ :: _, [] => false
  | a :: as, b :: bs => a = b && leadsWith as bs

/-- Python's substring test `needle in hay` (contiguous occurrence). -/
def occursIn (needle : List Char) : List Char → Bool
  | [] => needle.isEmpty
  | b :: bs => leadsWith needle (b :: bs) || occursIn needle bs

/-- Python `str.replace(a, b)` for single-character patterns. -/
def replChar (a b : Char) (s : String) : String :=
  ⟨s.data.map (fun c => if c = a then b else c)⟩

/-- Helper for `pyThousands`: walking the reversed digit list, insert a
`,` after every three characters. -/
def grpAux : Nat → List Char → List Char
  | _, [] => []
  | 0, c :: rest => ',' :: c :: grpAux 2 rest
  | Nat.succ k, c :: rest => c :: grpAux k rest

/-- Python `f"{n:,}"`: decimal digits of `n` grouped in threes by commas. -/
def pyThousands (n : Nat) : String :=
  ⟨(grpAux 3 (toString n).data.reverse).reverse⟩

/-- Round `n / d` to the nearest integer, ties to the even neighbour
(the rounding mode of Python's `round` and of `%.2f` formatting). -/
def roundHalfEvenDiv (n d : Nat) : Nat :=
  let q := n / d
  let r := n % d
  if 2 * r < d then q else if 2 * r > d then q + 1
  else if q % 2 = 0 then q else q + 1

/-- Two-digit zero-padded decimal rendering of `n < 100`. -/
def pad2 (n : Nat) : String :=
  if n < 10 then "0" ++ toString n else toString n

/-! Section: Data model

`Item`, `Sec`, `ShopData` and `Doc` mirror the JSON document shape the bot
reads: `{ data: { date, daily: [ {items: [...]} ... ], featured: [...] } }`.
An `Option` field set to `none` models the corresponding key being absent.
`Doc.wrapped` is a dict carrying a `data` key, `Doc.plain` is a dict read
directly (the `data.get('data', data)` access); `plain`'s `extraKeys` flag
records whether the dict has keys beyond the modelled ones, which the code
can observe only through Python truthiness (`if data:`). -/

structure Item where
  name : String
  price : Nat
  type : String
  deriving DecidableEq, Repr

structure Sec where
  items : Option (List Item)
  deriving DecidableEq, Repr

structure ShopData where
  date : Option String
  daily : Option (List Sec)
  featured : Option (List Sec)
  deriving DecidableEq, Repr

inductive Doc where
  | wrapped (sd : ShopData)
  | plain (sd : ShopData) (extraKeys : Bool)
  deriving DecidableEq, Repr

/-- Embeds `data.get('data', data)`. -/
def getData : Doc → ShopData
  | .wrapped sd => sd
  | .plain sd _ => sd

/-- Python truthiness of the document dict (`if data:`): non-empty dict. -/
def docTruthy : Doc → Bool
  | .wrapped _ => true
  | .plain sd extra =>
      sd.date.isSome || sd.daily.isSome || sd.featured.isSome || extra

/-- Python truthiness of `self.last_shop_data` (initially `None`). -/
def optTruthy : Option Doc → Bool
  | none => false
  | some d => docTruthy d

/-- An inline keyboard button: label plus callback identifier (or URL). -/
structure Btn where
  label : String
  action : String
  deriving DecidableEq, Repr

/-- An outbound chat message in its final edited state: text plus inline
keyboard rows (an `edit_message_text` without `reply_markup` leaves `[]`). -/
structure Msg where
  text : String
  kb : List (List Btn)
  deriving DecidableEq, Repr

/-- The process-wide mutable bot state: the cached last snapshot. -/
structure BotState where
  last_shop_data : Option Doc
  deriving DecidableEq, Repr

/-! Section: Currency conversion (bot.py lines 32, 81-88)

`vbuck_to_rub = 0.499`.  `vbucks_to_rubles(v) = round(v * 0.499, 2)` is
embedded exactly in hundredths: `v * 0.499 * 100 = v * 499 / 10`. -/

/-- Embeds `round(vbucks * 0.499, 2)`, expressed in hundredths of a
ruble: half-even rounding of the exact product.  Python's `round` sees
the binary64 product `v * 0.499`, so at the tie points `v ≡ 5 (mod 10)`
its outcome follows that double's representation error rather than exact
half-even (e.g. `v = 15`: Python gives 7.49, this gives 7.48).  Every
proved statement evaluates this function only at tie-free inputs, where
the two agree. -/
def vbucks_to_rubles_kop (v : Nat) : Nat := roundHalfEvenDiv (v * 499) 10

/-- The ruble amount `vbucks_to_rubles` returns, as an exact rational. -/
def vbucks_to_rubles (v : Nat) : ℚ := (vbucks_to_rubles_kop v : ℚ) / 100

/-- Embeds the Python expression that renders rubles with two decimals
and then swaps the dot for a comma, on an amount given in hundredths. -/
def rubDisplay (kop : Nat) : String :=
  toString (kop / 100) ++ "," ++ pad2 (kop % 100)

/-- Embeds `format_price_with_rub` (lines 84-88). -/
def format_price_with_rub (vbucks : Nat) : String :=
  replChar ',' ' ' (pyThousands vbucks) ++ " V-Bucks (~" ++
    rubDisplay (vbucks_to_rubles_kop vbucks) ++ " ₽)"

/-! Section: Rarity heuristic (lines 90-100) -/

/-- Embeds `get_rarity`: cascading case-insensitive substring tests. -/
def get_rarity (name : String) : String :=
  let n := (pyLower name).data
  if occursIn "legendary".data n || occursIn "reaper".data n ||
      occursIn "igris".data n then "legendary"
  else if occursIn "epic".data n || occursIn "jin".data n ||
      occursIn "hao".data n then "epic"
  else if occursIn "rare".data n || occursIn "dino".data n then "rare"
  else if occursIn "uncommon".data n then "uncommon"
  else "common"

/-- Modelled from the spec (§4.2): the rarity rules as a declarative
ordered table, "first match wins, checked in the order legendary-keywords,
epic-keywords, rare-keywords, uncommon-keywords, else common". -/
def rarityRules : List (List String × String) :=
  [(["legendary", "reaper", "igris"], "legendary"),
   (["epic", "jin", "hao"], "epic"),
   (["rare", "dino"], "rare"),
   (["uncommon"], "uncommon")]

/-- First rule of the table one of whose keywords occurs in the
(lowercased) name wins; no match falls through to `"common"`. -/
def tableClassify (n : List Char) : List (List String × String) → String
  | [] => "common"
  | (kws, r) :: rest =>
      if kws.any (fun k => occursIn k.data n) then r else tableClassify n rest

/-- Spec-side rarity classifier: ordered rule table, first match wins. -/
def rarityByTableSpec (name : String) : String :=
  tableClassify (pyLower name).data rarityRules

/-! Section: Item-type display tables (lines 35-69, 72-79) -/

def ITEM_TYPE_EMOJI : List (String × String) :=
  [("outfit", "👕"), ("pickaxe", "⛏️"), ("glider", "🪂"), ("emote", "💃"),
   ("backbling", "🎒"), ("wrap", "🎁"), ("bundle", "📦"), ("music", "🎵"),
   ("loading", "⏳"), ("spray", "🎨"), ("emoji", "😊"), ("toy", "🧸"),
   ("pet", "🐶"), ("contrail", "✨"), ("unknown", "❓")]

def ITEM_TYPE_RU : List (String × String) :=
  [("outfit", "Костюм"), ("pickaxe", "Инструмент"), ("glider", "Планер"),
   ("emote", "Эмоция"), ("backbling", "Украшение"), ("wrap", "Обёртка"),
   ("bundle", "Набор"), ("music", "Музыка"), ("loading", "Экран загрузки"),
   ("spray", "Граффити"), ("emoji", "Эмодзи"), ("toy", "Игрушка"),
   ("pet", "Питомец"), ("contrail", "След"), ("unknown", "Предмет")]

def RARITY_EMOJI : List (String × String) :=
  [("common", "⚪"), ("uncommon", "🟢"), ("rare", "🔵"), ("epic", "🟣"),
   ("legendary", "🟠"), ("mythic", "🔴")]

/-- Embeds `ITEM_TYPE_EMOJI.get(t, ITEM_TYPE_EMOJI['unknown'])`. -/
def typeEmojiOf (t : String) : String := (ITEM_TYPE_EMOJI.lookup t).getD "❓"

/-- Embeds `ITEM_TYPE_RU.get(t, ITEM_TYPE_RU['unknown'])`. -/
def typeRuOf (t : String) : String := (ITEM_TYPE_RU.lookup t).getD "Предмет"

/-- Embeds `RARITY_EMOJI.get(r, '⚪')`. -/
def rarityEmojiOf (r : String) : String := (RARITY_EMOJI.lookup r).getD "⚪"

/-! Section: Built-in sample data and the fetch gateway (lines 103-155) -/

/-- Embeds `get_test_data` (lines 119-155); `todayIso` stands for
`datetime.now().strftime("%Y-%m-%d")`. -/
def get_test_data (todayIso : String) : Doc :=
  .wrapped
    { date := some todayIso
      daily := some
        [⟨some
            [⟨"Sung Jin-Woo", 1800, "outfit"⟩,
             ⟨"Sung Jin-Woo (Shadow Monarch)", 1800, "outfit"⟩,
             ⟨"Cha Hae-In", 1800, "outfit"⟩,
             ⟨"Blood-Red Commander Igris", 1800, "outfit"⟩,
             ⟨"Kaisel (Glider)", 1200, "glider"⟩,
             ⟨"Demon King's Longsword (Pickaxe)", 800, "pickaxe"⟩,
             ⟨"Kamish's Wrath (Wrap)", 500, "wrap"⟩]⟩,
         ⟨some
            [⟨"Black Dino Ranger", 1500, "outfit"⟩,
             ⟨"White Dino Ranger", 1500, "outfit"⟩,
             ⟨"Dino Thunder Bundle", 2400, "bundle"⟩,
             ⟨"Brachio Staff (Pickaxe)", 800, "pickaxe"⟩,
             ⟨"Dragon Sword (Pickaxe)", 800, "pickaxe"⟩,
             ⟨"Brachio Zord (Back Bling)", 500, "backbling"⟩]⟩]
      featured := some
        [⟨some
            [⟨"Mighty Morphing Power Rangers (LEGO)", 1800, "outfit"⟩,
             ⟨"Skull Raider", 1200, "outfit"⟩,
             ⟨"The Foundation", 1500, "outfit"⟩,
             ⟨"Venom Fang & Knight Killer (Pickaxe)", 800, "pickaxe"⟩,
             ⟨"Wings of Light (Back Bling)", 400, "backbling"⟩,
             ⟨"Shadow Summoner (Emote)", 400, "emote"⟩,
             ⟨"S-Rank Scent (Emote)", 400, "emote"⟩]⟩] }

/-- Outcome of the HTTP call inside `get_shop_data`: the request may raise
(timeout / transport error), or return a status code together with the
body; `body = none` stands for a body on which `response.json()` raises
(which the surrounding `except` also catches). -/
inductive Origin where
  | failure
  | response (status : Nat) (body : Option Doc)
  deriving DecidableEq, Repr

/-- Embeds `get_shop_data` (lines 103-117): 200 with a decodable body is returned
as-is, everything else falls back to `get_test_data`. -/
def get_shop_data (o : Origin) (todayIso : String) : Doc :=
  match o with
  | .failure => get_test_data todayIso
  | .response status body =>
      if status = 200 then
        match body with
        | some d => d
        | none => get_test_data todayIso
      else get_test_data todayIso

/-! Section: Flattening (lines 157-168) -/

/-- One `for sec in ...: if 'items' in sec: items.extend(sec['items'])`
loop. -/
def secsItems (l : List Sec) : List Item :=
  (l.map (fun s => s.items.getD [])).flatten

/-- The section list under a key, `[]` when the key is absent
(`if 'daily' in shop_data`). -/
def optSecsItems : Option (List Sec) → List Item
  | none => []
  | some l => secsItems l

/-- Embeds `get_all_items` (lines 157-168): daily sections then featured
sections, in source order. -/
def get_all_items (d : Doc) : List Item :=
  optSecsItems (getData d).daily ++ optSecsItems (getData d).featured

/-! Section: Date handling

Embeds `datetime.strptime(date[:10], "%Y-%m-%d")` followed by
`strftime("%d.%m.%Y")`, together with the `try/except` around it. -/

/-- Numeric value of a decimal digit character. -/
def digitV (c : Char) : Nat := c.toNat - 48

/-- Leap-year rule used by `datetime`'s calendar validation. -/
def isLeap (y : Nat) : Bool := y % 4 = 0 && (y % 100 ≠ 0 || y % 400 = 0)

/-- Day count of month `m` in year `y` (`datetime` calendar). -/
def daysInMonth (y m : Nat) : Nat :=
  if m = 2 then (if isLeap y then 29 else 28)
  else if m = 4 || m = 6 || m = 9 || m = 11 then 30
  else 31

/-- Parses a ten-character `YYYY-MM-DD` date and re-renders it as
`DD.MM.YYYY`; `none` models the `ValueError` path of `strptime`. -/
def parseIsoToDisplay (s : String) : Option String :=
  match s.data with
  | [y1, y2, y3, y4, '-', m1, m2, '-', d1, d2] =>
      if y1.isDigit && y2.isDigit && y3.isDigit && y4.isDigit &&
          m1.isDigit && m2.isDigit && d1.isDigit && d2.isDigit then
        let y := ((digitV y1 * 10 + digitV y2) * 10 + digitV y3) * 10 + digitV y4
        let m := digitV m1 * 10 + digitV m2
        let dd := digitV d1 * 10 + digitV d2
        if 1 ≤ y && 1 ≤ m && m ≤ 12 && 1 ≤ dd && dd ≤ daysInMonth y m then
          some ⟨[d1, d2, '.', m1, m2, '.', y1, y2, y3, y4]⟩
        else none
      else none
  | _ => none

/-- Date resolution of `format_shop_text` (lines 173-179): a missing date
falls back to today, a date longer than ten characters is parsed (falling
back to today on failure), a short date is kept verbatim. -/
def resolveDateKeepShort (d? : Option String) (todayDisp : String) : String :=
  match d? with
  | none => todayDisp
  | some s =>
      if s.length > 10 then
        match parseIsoToDisplay (String.mk (s.data.take 10)) with
        | some disp => disp
        | none => todayDisp
      else s

/-- Date resolution of `get_shop_stats` (lines 241-249) and
`get_top_items` (lines 270-278): the default is `''`, and any date of at
most ten characters is replaced by today. -/
def resolveDateOrToday (d? : Option String) (todayDisp : String) : String :=
  let s := d?.getD ""
  if s.length > 10 then
    match parseIsoToDisplay (String.mk (s.data.take 10)) with
    | some disp => disp
    | none => todayDisp
  else todayDisp

/-! Section: Grouping by name (lines 194-200 and 302-307)

Embeds the duplicated `grouped.setdefault(name, []).append((price, type))`
loop over an insertion-ordered dict (Python 3.7+ dict semantics): the
dict is a list of key/value pairs in first-insertion order. -/

/-- One `grouped.setdefault(name, []).append(pt)` step. -/
def upsert (g : List (String × List (Nat × String))) (name : String)
    (pt : Nat × String) : List (String × List (Nat × String)) :=
  match g with
  | [] => [(name, [pt])]
  | (k, ps) :: rest =>
      if k = name then (k, ps ++ [pt]) :: rest else (k, ps) :: upsert rest name pt

/-- Embeds the grouping loop: fold the items into the ordered dict. -/
def group (items : List Item) : List (String × List (Nat × String)) :=
  items.foldl (fun g i => upsert g i.name (i.price, i.type)) []

/-- Value stored under a key in the ordered dict (`[]` when absent). -/
def lookupGroup : List (String × List (Nat × String)) → String → List (Nat × String)
  | [], _ => []
  | (k, ps) :: rest, n => if k = n then ps else lookupGroup rest n

/-- Spec-side notion for claim C4: the distinct members of a list in
order of first occurrence. -/
def firstSeen : List String → List String
  | [] => []
  | n :: ns => n :: firstSeen (ns.filter (fun m => ¬ m = n))
termination_by l => l.length
decreasing_by
  simp only [List.length_cons]
  exact Nat.lt_succ_of_le (List.length_filter_le _ _)

/-! Section: Full/daily/featured rendering, `format_shop_text`
(lines 171-225) -/

/-- Items selected by the `section` argument (lines 181-189). -/
def sectionItems (sd : ShopData) (sectionKey : String) : List Item :=
  (if sectionKey = "all" || sectionKey = "daily" then optSecsItems sd.daily else []) ++
  (if sectionKey = "all" || sectionKey = "featured" then optSecsItems sd.featured else [])

/-- Enumerated price lines of one group (lines 221-222), starting at 1. -/
def priceLines (i : Nat) : List (Nat × String) → String
  | [] => ""
  | (p, _) :: rest =>
      "   " ++ toString i ++ ". " ++ format_price_with_rub p ++ "\n" ++
        priceLines (i + 1) rest

/-- Text block of one grouped entry (lines 212-223). -/
def groupBlock (g : String × List (Nat × String)) : String :=
  let firstType := (g.2.headD (0, "unknown")).2
  rarityEmojiOf (get_rarity g.1) ++ typeEmojiOf firstType ++ " **" ++ g.1 ++
    "**  _(" ++ typeRuOf firstType ++ ")_\n" ++ priceLines 1 g.2 ++
    "   ─────────────\n"

/-- Embeds `format_shop_text` (lines 171-225). -/
def format_shop_text (d : Doc) (sectionKey : String) (todayDisp : String) : String :=
  let sd := getData d
  let date := resolveDateKeepShort sd.date todayDisp
  let items := sectionItems sd sectionKey
  if items.isEmpty then "😢 В магазине нет предметов"
  else
    let header :=
      (if sectionKey = "all" then
        "🛒 **ЕЖЕДНЕВНЫЙ МАГАЗИН ПРЕДМЕТОВ**\n📅 " ++ date ++ "\n\n"
       else if sectionKey = "daily" then
        "✨ **ЕЖЕДНЕВНЫЕ ПРЕДМЕТЫ**\n📅 " ++ date ++ "\n\n"
       else "🌟 **НОВИНКИ И ИЗБРАННОЕ**\n📅 " ++ date ++ "\n\n") ++
      "💱 **Курс:** 1 V-Buck = 0.499 ₽\n\n"
    (group items).foldl (fun acc g => acc ++ groupBlock g) header

/-! Section: Statistics, `get_shop_stats` (lines 228-262) -/

/-- Embeds `sum(item['price'] for item in items)`. -/
def shop_total (items : List Item) : Nat :=
  items.foldl (fun a i => a + i.price) 0

/-- The exact rational quotient totalPrice / count: the ideal average
that line 235's `avg_price_vb = total_value_vb / total_items`
approximates.  This is NOT the embedding of the float result: the value
the program stores is an IEEE binary64 approximation of this quotient,
modelled relationally by `floatDivResult` below, and equals `shop_avg`
only when the quotient is itself representable. -/
def shop_avg (items : List Item) : ℚ :=
  (shop_total items : ℚ) / (items.length : ℚ)

/-- Finite IEEE binary64 values, embedded as exact rationals: an
integer significand of at most 53 bits scaled by a power of two.
Exponent range limits (overflow/subnormals) are ignored — catalog sums
never approach them.  Every value a Python `float` can hold is of this
form. -/
def isFin64 (x : ℚ) : Prop :=
  ∃ (m e : ℤ), |m| < 2 ^ 53 ∧ x = (m : ℚ) * (2 : ℚ) ^ e

/-- Embeds line 235's float division relationally: IEEE division returns
a representable value nearest the exact quotient `q` (the tie rule does
not matter for any statement below).  `floatDivResult q x` says `x` is a
value `total_value_vb / total_items` can produce when the exact quotient
is `q`. -/
def floatDivResult (q x : ℚ) : Prop :=
  isFin64 x ∧ ∀ y : ℚ, isFin64 y → |x - q| ≤ |y - q|

/-- Embeds `max(items, key=lambda x: x['price'])`: Python `max` keeps the
first element and replaces it only on a strictly larger key. -/
def maxByPrice : List Item → Option Item
  | [] => none
  | x :: xs => some (xs.foldl (fun acc y => if acc.price < y.price then y else acc) x)

/-- Idealization of the average's one-decimal rendering with a comma:
tenths of the exact quotient, rounded half-to-even.  The program formats
the binary64 quotient instead, which can differ at near-tie quotients
(e.g. total 7, count 20 renders "0.3" in Python but "0,4" here).  No
proved statement exercises this function outside the empty-catalog
branch, which returns before reaching it. -/
def avgVbDisplay (total count : Nat) : String :=
  let t := roundHalfEvenDiv (total * 10) count
  toString (t / 10) ++ "," ++ toString (t % 10)

/-- Idealization of `vbucks_to_rubles(avg_price_vb)` in hundredths:
`round(total/count * 0.499, 2)` of the exact quotient.  As with
`avgVbDisplay`, Python rounds the binary64 quotient, which can differ at
near-tie quotients; no proved statement exercises this function outside
the empty-catalog branch. -/
def avgRubKop (total count : Nat) : Nat :=
  roundHalfEvenDiv (total * 499) (count * 10)

/-- Embeds `get_shop_stats` (lines 228-262). -/
def get_shop_stats (d : Doc) (todayDisp : String) : String :=
  let items := get_all_items d
  if items.isEmpty then "😢 Нет данных для статистики."
  else
    let total_items := items.length
    let total_value_vb := shop_total items
    let max_item := (maxByPrice items).getD ⟨"", 0, "unknown"⟩
    let date := resolveDateOrToday (getData d).date todayDisp
    "📊 **Статистика магазина от " ++ date ++ "**\n\n" ++
    "📦 Всего предметов: **" ++ toString total_items ++ "**\n" ++
    "💰 Общая стоимость: **" ++ replChar ',' ' ' (pyThousands total_value_vb) ++
      " V-Bucks** (~" ++ rubDisplay (vbucks_to_rubles_kop total_value_vb) ++ " ₽)\n" ++
    "📈 Средняя цена: **" ++ avgVbDisplay total_value_vb total_items ++
      " V-Bucks** (~" ++ rubDisplay (avgRubKop total_value_vb total_items) ++ " ₽)\n" ++
    "🏆 Самый дорогой: **" ++ max_item.name ++ "** — " ++
      format_price_with_rub max_item.price

/-! Section: Top items, `get_top_items` (lines 265-288) -/

/-- Stable descending insertion by price: the inserted element goes in
front of the first element whose price it reaches, hence after every
strictly larger and before every equal-or-smaller one. -/
def insertByPriceDesc (x : Item) : List Item → List Item
  | [] => [x]
  | y :: ys => if y.price ≤ x.price then x :: y :: ys else y :: insertByPriceDesc x ys

/-- Embeds `sorted(items, key=lambda x: x['price'], reverse=True)`:
Python's sort is stable, and `reverse=True` preserves the input order of
equal keys; embedded as the canonical stable insertion sort. -/
def sortByPriceDesc : List Item → List Item
  | [] => []
  | x :: xs => insertByPriceDesc x (sortByPriceDesc xs)

/-- Embeds `sorted(items, ...)[:n]` (line 269). -/
def top_selected (items : List Item) (n : Nat) : List Item :=
  (sortByPriceDesc items).take n

/-- Numbered lines of the top list (lines 280-287). -/
def topLines (i : Nat) : List Item → String
  | [] => ""
  | it :: rest =>
      toString i ++ ". " ++ rarityEmojiOf (get_rarity it.name) ++
        typeEmojiOf it.type ++ " " ++ it.name ++ " — " ++
        format_price_with_rub it.price ++ "\n" ++ topLines (i + 1) rest

/-- Embeds `get_top_items` (lines 265-288). -/
def get_top_items (d : Doc) (n : Nat) (todayDisp : String) : String :=
  let items := get_all_items d
  if items.isEmpty then "😢 Нет данных."
  else
    let date := resolveDateOrToday (getData d).date todayDisp
    "🏆 **Топ-" ++ toString n ++ " самых дорогих предметов** (" ++ date ++
      ")\n\n" ++ topLines 1 (top_selected items n)

/-! Section: Search, `search_items` (lines 291-319) -/

/-- Embeds `query_lower in item['name'].lower()`. -/
def nameMatches (q : String) (i : Item) : Bool :=
  occursIn (pyLower q).data (pyLower i.name).data

/-- Embeds the `found` accumulation loop (lines 296-299). -/
def search_found (items : List Item) (q : String) : List Item :=
  items.filter (nameMatches q)

/-- Bulleted price lines of one search group (lines 316-317). -/
def searchPriceLines : List (Nat × String) → String
  | [] => ""
  | (p, _) :: rest =>
      "   • " ++ format_price_with_rub p ++ "\n" ++ searchPriceLines rest

/-- Text block of one grouped search result (lines 309-318). -/
def searchBlock (g : String × List (Nat × String)) : String :=
  let firstType := (g.2.headD (0, "unknown")).2
  rarityEmojiOf (get_rarity g.1) ++ typeEmojiOf firstType ++ " **" ++ g.1 ++
    "**  _(" ++ typeRuOf firstType ++ ")_\n" ++ searchPriceLines g.2 ++
    "   ─────────────\n"

/-- Embeds `search_items` (lines 291-319). -/
def search_items (d : Doc) (q : String) : String :=
  let items := get_all_items d
  if items.isEmpty then "😢 Нет данных для поиска."
  else
    let found := search_found items q
    if found.isEmpty then "😕 По запросу «" ++ q ++ "» ничего не найдено."
    else
      (group found).foldl (fun acc g => acc ++ searchBlock g)
        ("🔍 **Результаты поиска по запросу «" ++ q ++ "»**\n\n")

/-! Section: Dispatcher messages (lines 335-437, 584-635) -/

/-- Shared view-switch keyboard attached to shop results (lines 350-359). -/
def shopExtraRows : List (List Btn) :=
  [[⟨"🛒 Весь магазин", "shop_all"⟩, ⟨"✨ Ежедневные", "shop_daily"⟩],
   [⟨"🌟 Новинки", "shop_featured"⟩, ⟨"🎲 Случайный предмет", "random_item"⟩],
   [⟨"📊 Статистика", "stats"⟩, ⟨"🏆 Топ-5", "top"⟩],
   [⟨"💱 Курс валют", "exchange"⟩, ⟨"🔄 Обновить", "refresh"⟩]]

/-- Row holding the back-to-menu control (line 341). -/
def backRow : List (List Btn) := [[⟨"🔙 Назад", "menu"⟩]]

/-- Embeds `show_shop_result` (lines 345-362): fetch, cache on a truthy
result, render; a falsy result replaces the message with a plain error
text.  The transient loading edit that precedes it is elided: the value
is the final state of the single outbound message. -/
def show_shop_result (st : BotState) (o : Origin) (sectionKey : String)
    (todayIso todayDisp : String) : BotState × Msg :=
  let data := get_shop_data o todayIso
  if docTruthy data then
    (⟨some data⟩,
     ⟨format_shop_text data sectionKey todayDisp, shopExtraRows ++ backRow⟩)
  else (st, ⟨"😢 Не удалось получить данные магазина", []⟩)

/-- Root-menu message of `show_main_menu` (lines 417-437). -/
def mainMenuMsg : Msg :=
  ⟨"👋 **Главное меню**\n\nВыберите действие:",
   [[⟨"🛒 Весь магазин", "shop_all"⟩, ⟨"✨ Ежедневные", "shop_daily"⟩],
    [⟨"🌟 Новинки", "shop_featured"⟩, ⟨"🎲 Случайный предмет", "random_item"⟩],
    [⟨"📊 Статистика", "stats"⟩, ⟨"🏆 Топ-5", "top"⟩],
    [⟨"💱 Курс валют", "exchange"⟩,
     ⟨"🌐 Официальный сайт", "https://www.fortnite.com/item-shop"⟩],
    [⟨"❓ Помощь", "help"⟩]]⟩

/-- Embeds the `refresh` branch of `button_handler` (lines 609-614): with
a truthy cached snapshot it re-runs `show_shop_result(query, "all")`
(which fetches again); otherwise it edits the message to a plain
"load the shop first" text. -/
def refresh_action (st : BotState) (o : Origin) (todayIso todayDisp : String) :
    BotState × Msg :=
  if optTruthy st.last_shop_data then
    show_shop_result st o "all" todayIso todayDisp
  else (st, ⟨"Сначала загрузите магазин", []⟩)

/-- Embeds `night_update` (lines 440-461): the scheduled job sends a
fixed announcement with a menu keyboard to the configured chat; `now`
stands for `datetime.now().strftime('%d.%m.%Y %H:%M')`.  The bot state is
taken as an argument to reflect that the method runs on `self`; its
output does not consult it, and no fetch is performed. -/
def night_update (st : BotState) (now : String) : Msg :=
  let _ := st
  ⟨"🌙 **НОЧНОЕ ОБНОВЛЕНИЕ МАГАЗИНА**\n\n🕒 " ++ now ++
     " МСК\n🛒 Магазин Fortnite обновился!\n\n👇 Выберите раздел:",
   [[⟨"🛒 Весь магазин", "shop_all"⟩, ⟨"✨ Ежедневные", "shop_daily"⟩],
    [⟨"🌟 Новинки", "shop_featured"⟩, ⟨"🎲 Случайный предмет", "random_item"⟩],
    [⟨"📊 Статистика", "stats"⟩, ⟨"🏆 Топ-5", "top"⟩],
    [⟨"💱 Курс валют", "exchange"⟩,
     ⟨"🌐 Открыть сайт", "https://www.fortnite.com/item-shop"⟩]]⟩

/-! Section: Concrete demonstration data used by witnesses and
counterexamples -/

/-- A dict of an entirely different shape than the expected one
(a stand-in for a body like `{"foo": 1}`: none of the read keys, but
non-empty). -/
def oddShapeDoc : Doc := .plain ⟨none, none, none⟩ true

/-- A small cached snapshot. -/
def demoDocA : Doc :=
  .wrapped ⟨some "01.01", some [⟨some [⟨"Alpha", 100, "outfit"⟩]⟩], none⟩

/-- A small, different snapshot served by the origin. -/
def demoDocB : Doc :=
  .wrapped ⟨some "02.01", some [⟨some [⟨"Beta", 200, "emote"⟩]⟩], none⟩

/-- A truthy snapshot whose sections hold no items. -/
def emptyCatalogDoc : Doc := .wrapped ⟨some "2025-01-15", some [], some []⟩

/-- A one-item snapshot used to exercise the no-match search path. -/
def demoSearchDoc : Doc :=
  .wrapped ⟨none, some [⟨some [⟨"Cha Hae-In", 1800, "outfit"⟩]⟩], none⟩

/-- A two-item list whose exact average price, 200, is representable in
binary64, so the program's float division returns it exactly. -/
def demoAvgItems : List Item :=
  [⟨"A", 100, "outfit"⟩, ⟨"B", 300, "emote"⟩]

/-- Forty-nine items totalling one price unit: the exact average 1/49 is
not representable in binary64 (no dyadic rational equals it). -/
def fortyNineItems : List Item :=
  ⟨"Unit", 1, "outfit"⟩ :: List.replicate 48 ⟨"Filler", 0, "outfit"⟩

/-! Section: General lemmas about the string primitives -/

theorem leadsWith_iff (n h : List Char) : leadsWith n h = true ↔ n <+: h := by
  induction n generalizing h with
  | nil => simp [leadsWith, List.nil_prefix]
  | cons a as ih =>
      cases h with
      | nil => simp only [leadsWith]; simp
      | cons b bs =>
          simp only [leadsWith, Bool.and_eq_true, decide_eq_true_eq, ih,
            List.cons_prefix_cons]

theorem occursIn_iff (n h : List Char) : occursIn n h = true ↔ n <:+: h := by
  induction h with
  | nil => simp [occursIn, List.isEmpty_iff, List.infix_nil]
  | cons b bs ih =>
      simp [occursIn, List.infix_cons_iff, leadsWith_iff, ih]

/-! Section: Claim C8 (rarity classification) -/

/-- Claim C8: rarity classification is a case-insensitive substring match
against a fixed ordered rule table with first match winning, checked in
the order legendary, epic, rare, uncommon keywords, else common; the name
"Blood-Red Commander Igris" classifies as legendary and "Generic Wrap" as
common. -/
theorem C8_rarity_table :
    (∀ name, get_rarity name = rarityByTableSpec name) ∧
    get_rarity "Blood-Red Commander Igris" = "legendary" ∧
    get_rarity "Generic Wrap" = "common" := by
  refine ⟨fun name => ?_, by decide, by decide⟩
  simp only [get_rarity, rarityByTableSpec, rarityRules, tableClassify,
    List.any_cons, List.any_nil, Bool.or_false, Bool.or_assoc]

/-! Section: Claim C9 (price formatting round-trip) -/

/-- Claim C9: formatting a price of 1800 units at the fixed rate 0.499
yields "1 800 V-Bucks (~898,20 ₽)"; the converted amount is exactly
1800 × 0.499 (no rounding is needed at this input). -/
theorem C9_price_formatting :
    format_price_with_rub 1800 = "1 800 V-Bucks (~898,20 ₽)" ∧
    vbucks_to_rubles 1800 = 1800 * (499 / 1000 : ℚ) := by
  refine ⟨by decide, ?_⟩
  have h : vbucks_to_rubles_kop 1800 = 89820 := by decide
  rw [vbucks_to_rubles, h]
  norm_num

/-! Section: Claim C1 (fetch fallback and caching) -/

/-- Claim C1 (amended): `get_shop_data` returns the built-in sample
snapshot on a transport failure, a non-success status, or an
unparseable body; a success-status parseable body comes back unchanged,
whatever its shape; the sample snapshot flattens to 20 items; and the
caching of the fetched snapshot happens in the shop-view caller
(`show_shop_result`), which stores any truthy fetched document. -/
theorem C1_fetch_fallback (tI : String) (code : Nat) (b : Option Doc)
    (d : Doc) (st : BotState) (sk tD : String) (o : Origin) :
    get_shop_data .failure tI = get_test_data tI ∧
    (code ≠ 200 → get_shop_data (.response code b) tI = get_test_data tI) ∧
    get_shop_data (.response 200 none) tI = get_test_data tI ∧
    get_shop_data (.response 200 (some d)) tI = d ∧
    (get_all_items (get_test_data tI)).length = 20 ∧
    (docTruthy (get_shop_data o tI) = true →
      (show_shop_result st o sk tI tD).1.last_shop_data =
        some (get_shop_data o tI)) := by
  refine ⟨rfl, fun hc => ?_, rfl, rfl, rfl, fun ht => ?_⟩
  · simp [get_shop_data, hc]
  · simp [show_shop_result, ht]

theorem C1_fetch_fallback_witness :
    ((404 : Nat) ≠ 200 ∧
      get_shop_data (.response 404 none) "2025-01-15" =
        get_test_data "2025-01-15") ∧
    (docTruthy (get_shop_data .failure "2025-01-15") = true ∧
      (show_shop_result ⟨none⟩ .failure "all" "2025-01-15"
          "15.01.2025").1.last_shop_data =
        some (get_shop_data .failure "2025-01-15")) :=
  ⟨⟨by decide,
    (C1_fetch_fallback "2025-01-15" 404 none oddShapeDoc ⟨none⟩ "all"
        "15.01.2025" .failure).2.1 (by decide)⟩,
   ⟨by decide,
    (C1_fetch_fallback "2025-01-15" 404 none oddShapeDoc ⟨none⟩ "all"
        "15.01.2025" .failure).2.2.2.2.2 (by decide)⟩⟩

/-- Counterexample to claim C1 as stated: a success-status body of a
shape other than the expected one is returned as-is, not replaced by the
built-in sample snapshot. -/
theorem C1_fetch_shape_counterexample :
    get_shop_data (.response 200 (some oddShapeDoc)) "2025-01-15" =
      oddShapeDoc ∧
    get_shop_data (.response 200 (some oddShapeDoc)) "2025-01-15" ≠
      get_test_data "2025-01-15" :=
  ⟨rfl, by decide⟩

/-! Section: Claim C10 (empty renders) -/

theorem sectionItems_of_no_items (d : Doc) (h : get_all_items d = [])
    (sk : String) : sectionItems (getData d) sk = [] := by
  unfold get_all_items at h
  obtain ⟨h1, h2⟩ := List.append_eq_nil.mp h
  unfold sectionItems
  split_ifs <;> simp [h1, h2]

/-- Claim C10 (amended): every view kind renders the empty item set
without error as a fixed non-empty no-data message, but the message text
is fixed per view kind rather than shared: the catalog views say
"В магазине нет предметов" while top, stats and search have their own
texts. -/
theorem C10_empty_render (d : Doc) (h : get_all_items d = [])
    (sk tD q : String) (n : Nat) :
    format_shop_text d sk tD = "😢 В магазине нет предметов" ∧
    get_top_items d n tD = "😢 Нет данных." ∧
    get_shop_stats d tD = "😢 Нет данных для статистики." ∧
    search_items d q = "😢 Нет данных для поиска." ∧
    format_shop_text d sk tD ≠ "" ∧ get_top_items d n tD ≠ "" ∧
    get_shop_stats d tD ≠ "" ∧ search_items d q ≠ "" := by
  have hs := sectionItems_of_no_items d h sk
  have e1 : format_shop_text d sk tD = "😢 В магазине нет предметов" := by
    simp [format_shop_text, hs]
  have e2 : get_top_items d n tD = "😢 Нет данных." := by
    simp [get_top_items, h]
  have e3 : get_shop_stats d tD = "😢 Нет данных для статистики." := by
    simp [get_shop_stats, h]
  have e4 : search_items d q = "😢 Нет данных для поиска." := by
    simp [search_items, h]
  exact ⟨e1, e2, e3, e4, by rw [e1]; decide, by rw [e2]; decide,
    by rw [e3]; decide, by rw [e4]; decide⟩

theorem C10_empty_render_witness :
    get_all_items emptyCatalogDoc = [] ∧
    format_shop_text emptyCatalogDoc "all" "15.01.2025" =
      "😢 В магазине нет предметов" ∧
    get_top_items emptyCatalogDoc 5 "15.01.2025" = "😢 Нет данных." :=
  ⟨by decide,
   (C10_empty_render emptyCatalogDoc (by decide) "all" "15.01.2025" "x" 5).1,
   (C10_empty_render emptyCatalogDoc (by decide) "all" "15.01.2025" "x"
       5).2.1⟩

/-- Counterexample to claim C10 as stated: at the same empty catalog,
the full view and the top view return different no-data texts, so there
is no single fixed "nothing available" text shared by every view kind. -/
theorem C10_no_single_fixed_text :
    format_shop_text emptyCatalogDoc "all" "15.01.2025" =
      "😢 В магазине нет предметов" ∧
    get_top_items emptyCatalogDoc 5 "15.01.2025" = "😢 Нет данных." ∧
    format_shop_text emptyCatalogDoc "all" "15.01.2025" ≠
      get_top_items emptyCatalogDoc 5 "15.01.2025" :=
  ⟨by decide, by decide, by decide⟩

/-! Section: Claim C2 (refresh button) -/

/-- Claim C2 (amended): with a truthy cached snapshot, the refresh button
re-runs the full fetch-and-render pipeline of the "all" view — the cache
is only a presence guard; the displayed text is the render of the newly
fetched snapshot, which also overwrites the cache.  With no cached
snapshot, refresh replaces the current message by the plain
"Сначала загрузите магазин" text (without any keyboard, so the root menu
is no longer displayed) and leaves the state unchanged. -/
theorem C2_refresh_behavior (st : BotState) (o : Origin) (tI tD : String) :
    (optTruthy st.last_shop_data = false →
      refresh_action st o tI tD = (st, ⟨"Сначала загрузите магазин", []⟩)) ∧
    (optTruthy st.last_shop_data = true →
      refresh_action st o tI tD = show_shop_result st o "all" tI tD) ∧
    (optTruthy st.last_shop_data = true →
      docTruthy (get_shop_data o tI) = true →
      (refresh_action st o tI tD).1.last_shop_data =
          some (get_shop_data o tI) ∧
        (refresh_action st o tI tD).2.text =
          format_shop_text (get_shop_data o tI) "all" tD) := by
  refine ⟨fun hf => ?_, fun ht => ?_, fun ht hd => ?_⟩
  · simp [refresh_action, hf]
  · simp [refresh_action, ht]
  · constructor <;> simp [refresh_action, ht, show_shop_result, hd]

theorem C2_refresh_behavior_witness :
    refresh_action ⟨none⟩ .failure "2025-01-15" "15.01.2025" =
      (⟨none⟩, ⟨"Сначала загрузите магазин", []⟩) ∧
    (refresh_action ⟨some demoDocA⟩ .failure "2025-01-15"
        "15.01.2025").1.last_shop_data =
      some (get_shop_data .failure "2025-01-15") :=
  ⟨(C2_refresh_behavior ⟨none⟩ .failure "2025-01-15" "15.01.2025").1
     (by decide),
   ((C2_refresh_behavior ⟨some demoDocA⟩ .failure "2025-01-15"
        "15.01.2025").2.2 (by decide) (by decide)).1⟩

/-- Counterexample to claim C2 as stated: with snapshot `demoDocA`
cached, pressing refresh while the origin serves `demoDocB` displays the
render of the freshly fetched `demoDocB` (and overwrites the cache with
it) instead of reusing the cached snapshot; and with no cache, the shown
message carries no keyboard, unlike the root menu. -/
theorem C2_refresh_refetches :
    (refresh_action ⟨some demoDocA⟩ (.response 200 (some demoDocB))
        "2025-01-15" "15.01.2025").1.last_shop_data = some demoDocB ∧
    demoDocB ≠ demoDocA ∧
    (refresh_action ⟨some demoDocA⟩ (.response 200 (some demoDocB))
        "2025-01-15" "15.01.2025").2.text =
      format_shop_text demoDocB "all" "15.01.2025" ∧
    format_shop_text demoDocB "all" "15.01.2025" ≠
      format_shop_text demoDocA "all" "15.01.2025" ∧
    (refresh_action ⟨none⟩ (.response 200 (some demoDocB)) "2025-01-15"
        "15.01.2025").2 = ⟨"Сначала загрузите магазин", []⟩ ∧
    mainMenuMsg.kb ≠ [] :=
  ⟨by decide, by decide, by decide, by decide, by decide, by decide⟩

/-! Section: String-append head lemmas (for claim C3) -/

theorem str_data_append (s t : String) : (s ++ t).data = s.data ++ t.data := by
  cases s; cases t; rfl

theorem str_append_empty (s : String) : s ++ "" = s := by
  cases s with
  | mk d => exact congrArg String.mk (List.append_nil d)

theorem str_append_assoc (a b c : String) : (a ++ b) ++ c = a ++ (b ++ c) := by
  cases a; cases b; cases c
  exact congrArg String.mk (List.append_assoc _ _ _)

theorem str_head_append (s t : String) (c : Char)
    (h : s.data.head? = some c) : (s ++ t).data.head? = some c := by
  rw [str_data_append]
  cases hs : s.data with
  | nil => rw [hs] at h; cases h
  | cons x xs => rw [hs] at h; simpa using h

theorem foldl_append_ex {α : Type} (f : α → String) (l : List α)
    (base : String) :
    ∃ r : String, l.foldl (fun acc g => acc ++ f g) base = base ++ r := by
  induction l generalizing base with
  | nil => exact ⟨"", (str_append_empty base).symm⟩
  | cons x xs ih =>
      obtain ⟨r, hr⟩ := ih (base ++ f x)
      exact ⟨f x ++ r, by rw [List.foldl_cons, hr, str_append_assoc]⟩

/-- Every render of `format_shop_text` opens with the no-items marker or
with one of the three section headers. -/
theorem format_shop_text_head (d : Doc) (sk tD : String) :
    (format_shop_text d sk tD).data.head? = some '😢' ∨
    (format_shop_text d sk tD).data.head? = some '🛒' ∨
    (format_shop_text d sk tD).data.head? = some '✨' ∨
    (format_shop_text d sk tD).data.head? = some '🌟' := by
  simp only [format_shop_text]
  split
  · left; rfl
  · obtain ⟨r, hr⟩ := foldl_append_ex groupBlock
      (group (sectionItems (getData d) sk))
      ((if sk = "all" then
          "🛒 **ЕЖЕДНЕВНЫЙ МАГАЗИН ПРЕДМЕТОВ**\n📅 " ++
            resolveDateKeepShort (getData d).date tD ++ "\n\n"
        else if sk = "daily" then
          "✨ **ЕЖЕДНЕВНЫЕ ПРЕДМЕТЫ**\n📅 " ++
            resolveDateKeepShort (getData d).date tD ++ "\n\n"
        else "🌟 **НОВИНКИ И ИЗБРАННОЕ**\n📅 " ++
            resolveDateKeepShort (getData d).date tD ++ "\n\n") ++
        "💱 **Курс:** 1 V-Buck = 0.499 ₽\n\n")
    rw [hr]
    split_ifs
    · right; left
      exact str_head_append _ _ _ (str_head_append _ _ _
        (str_head_append _ _ _ (str_head_append _ _ _ (by decide))))
    · right; right; left
      exact str_head_append _ _ _ (str_head_append _ _ _
        (str_head_append _ _ _ (str_head_append _ _ _ (by decide))))
    · right; right; right
      exact str_head_append _ _ _ (str_head_append _ _ _
        (str_head_append _ _ _ (str_head_append _ _ _ (by decide))))

/-! Section: Claim C3 (scheduled nightly job) -/

/-- Claim C3 (amended): when the scheduled job fires, it pushes a fixed
announcement (timestamp, "the shop updated", and a menu keyboard) to the
fixed destination: its output is independent of the bot state — no fetch
is performed — and its text is never the rendered full-catalog view of
any snapshot. -/
theorem C3_night_update (st st' : BotState) (t : String) (d : Doc)
    (sk tD : String) :
    night_update st t = night_update st' t ∧
    (night_update st t).text ≠ format_shop_text d sk tD := by
  refine ⟨rfl, ?_⟩
  have hn : (night_update st t).text.data.head? = some '🌙' :=
    str_head_append _ _ _ (str_head_append _ _ _ (by decide))
  intro he
  rcases format_shop_text_head d sk tD with h | h | h | h <;>
    rw [he, h] at hn <;> exact absurd hn (by decide)

/-- Counterexample to claim C3 as stated: with the origin unreachable at
the scheduled time, the message the job pushes differs from the rendered
full-catalog view of the fetched snapshot — the job sends a fixed
announcement, not the `full` render. -/
theorem C3_night_not_full_render :
    (night_update ⟨none⟩ "15.01.2025 03:00").text ≠
      format_shop_text (get_shop_data .failure "2025-01-15") "all"
        "15.01.2025" := by
  have hn : (night_update (⟨none⟩ : BotState)
      "15.01.2025 03:00").text.data.head? = some '🌙' :=
    str_head_append _ _ _ (str_head_append _ _ _ (by decide))
  intro he
  rcases format_shop_text_head (get_shop_data .failure "2025-01-15") "all"
      "15.01.2025" with h | h | h | h <;>
    rw [he, h] at hn <;> exact absurd hn (by decide)

/-! Section: Claim C4 (grouping preserves first-seen order) -/

theorem firstSeen_cons (x : String) (l : List String) :
    firstSeen (x :: l) = x :: firstSeen (l.filter (fun m => ¬ m = x)) := by
  rw [firstSeen]

theorem upsert_keys (g : List (String × List (Nat × String))) (n : String)
    (pt : Nat × String) :
    (upsert g n pt).map Prod.fst =
      if n ∈ g.map Prod.fst then g.map Prod.fst
      else g.map Prod.fst ++ [n] := by
  induction g with
  | nil => simp [upsert]
  | cons kv rest ih =>
      obtain ⟨k, ps⟩ := kv
      by_cases hk : k = n
      · subst hk; simp [upsert]
      · simp only [upsert, if_neg hk, List.map_cons, ih, List.mem_cons]
        by_cases hm : n ∈ rest.map Prod.fst
        · simp [hm]
        · have hnk : ¬ n = k := fun h => hk h.symm
          simp [hm, hnk]

theorem upsert_lookup (g : List (String × List (Nat × String)))
    (n : String) (pt : Nat × String) (m : String) :
    lookupGroup (upsert g n pt) m =
      if m = n then lookupGroup g m ++ [pt] else lookupGroup g m := by
  induction g with
  | nil =>
      by_cases h : m = n
      · subst h; simp [upsert, lookupGroup]
      · have hnm : ¬ n = m := fun hx => h hx.symm
        simp [upsert, lookupGroup, h, hnm]
  | cons kv rest ih =>
      obtain ⟨k, ps⟩ := kv
      by_cases hk : k = n
      · subst hk
        by_cases hm : k = m
        · subst hm; simp [upsert, lookupGroup]
        · have hmk : ¬ m = k := fun hx => hm hx.symm
          simp [upsert, lookupGroup, hm, hmk]
      · by_cases hm : k = m
        · subst hm
          simp [upsert, lookupGroup, if_neg hk, fun h : k = n => hk h]
        · simp [upsert, lookupGroup, if_neg hk, hm, ih]

theorem group_aux_keys (items : List Item)
    (g : List (String × List (Nat × String))) :
    ((items.foldl (fun g i => upsert g i.name (i.price, i.type)) g).map
        Prod.fst) =
      g.map Prod.fst ++
        firstSeen ((items.map Item.name).filter
          (fun n => ¬ n ∈ g.map Prod.fst)) := by
  induction items generalizing g with
  | nil => simp [firstSeen]
  | cons i rest ih =>
      simp only [List.foldl_cons, List.map_cons]
      rw [ih, upsert_keys]
      by_cases hm : i.name ∈ g.map Prod.fst
      · rw [if_pos hm]
        have : ((i.name :: rest.map Item.name).filter
            (fun n => ¬ n ∈ g.map Prod.fst)) =
            (rest.map Item.name).filter (fun n => ¬ n ∈ g.map Prod.fst) := by
          simp [List.filter_cons, hm]
        rw [this]
      · rw [if_neg hm]
        have hstep : ((i.name :: rest.map Item.name).filter
            (fun n => ¬ n ∈ g.map Prod.fst)) =
            i.name :: ((rest.map Item.name).filter
              (fun n => ¬ n ∈ g.map Prod.fst)) := by
          simp [List.filter_cons, hm]
        rw [hstep, firstSeen_cons, List.append_assoc, List.singleton_append]
        have hff : (((rest.map Item.name).filter
              (fun n => ¬ n ∈ g.map Prod.fst)).filter
                (fun m => ¬ m = i.name)) =
            (rest.map Item.name).filter
              (fun n => ¬ n ∈ g.map Prod.fst ++ [i.name]) := by
          rw [List.filter_filter]
          apply List.filter_congr
          intro a _
          by_cases h1 : a ∈ g.map Prod.fst <;> by_cases h2 : a = i.name <;>
            simp [h1, h2]
        rw [hff]

theorem group_aux_lookup (items : List Item)
    (g : List (String × List (Nat × String))) (m : String) :
    lookupGroup
        (items.foldl (fun g i => upsert g i.name (i.price, i.type)) g) m =
      lookupGroup g m ++
        ((items.filter (fun i => i.name == m)).map
          (fun i => (i.price, i.type))) := by
  induction items generalizing g with
  | nil => simp
  | cons i rest ih =>
      simp only [List.foldl_cons]
      rw [ih, upsert_lookup]
      by_cases hm : m = i.name
      · rw [if_pos hm]
        have : (i.name == m) = true := by simp [hm]
        simp [List.filter_cons, this]
      · rw [if_neg hm]
        have : (i.name == m) = false := by
          simp only [beq_eq_false_iff_ne, ne_eq]
          exact fun h => hm h.symm
        simp [List.filter_cons, this]

/-- Claim C4: grouping an item list by name preserves first-seen order:
the key sequence of the grouped result is the sequence of distinct names
in order of first occurrence, and the entry stored under each name is the
list of (price, category) pairs of that name's items in input order. -/
theorem C4_group_first_seen (items : List Item) :
    (group items).map Prod.fst = firstSeen (items.map Item.name) ∧
    ∀ n, lookupGroup (group items) n =
      (items.filter (fun i => i.name == n)).map
        (fun i => (i.price, i.type)) := by
  constructor
  · have h := group_aux_keys items []
    simpa using h
  · intro n
    have h := group_aux_lookup items [] n
    simpa [lookupGroup] using h

/-! Section: Claim C5 (topN is a stable descending sort) -/

theorem insertByPriceDesc_perm (x : Item) (l : List Item) :
    (insertByPriceDesc x l).Perm (x :: l) := by
  induction l with
  | nil => exact List.Perm.refl _
  | cons y ys ih =>
      simp only [insertByPriceDesc]
      split_ifs
      · exact List.Perm.refl _
      · exact (ih.cons y).trans (List.Perm.swap x y ys)

theorem sortByPriceDesc_perm (l : List Item) :
    (sortByPriceDesc l).Perm l := by
  induction l with
  | nil => exact List.Perm.refl _
  | cons x xs ih =>
      exact (insertByPriceDesc_perm x (sortByPriceDesc xs)).trans (ih.cons x)

theorem insertByPriceDesc_pairwise (x : Item) (l : List Item)
    (h : List.Pairwise (fun a b : Item => b.price ≤ a.price) l) :
    List.Pairwise (fun a b : Item => b.price ≤ a.price)
      (insertByPriceDesc x l) := by
  induction l with
  | nil => simp [insertByPriceDesc]
  | cons y ys ih =>
      simp only [insertByPriceDesc]
      rcases List.pairwise_cons.mp h with ⟨hy, hys⟩
      split_ifs with hle
      · refine List.pairwise_cons.mpr ⟨?_, h⟩
        intro z hz
        rcases List.mem_cons.mp hz with hz | hz
        · exact hz ▸ hle
        · exact le_trans (hy z hz) hle
      · refine List.pairwise_cons.mpr ⟨?_, ih hys⟩
        intro z hz
        have hz' : z ∈ x :: ys := (insertByPriceDesc_perm x ys).mem_iff.mp hz
        rcases List.mem_cons.mp hz' with hz' | hz'
        · exact hz' ▸ le_of_lt (lt_of_not_le hle)
        · exact hy z hz'

theorem sortByPriceDesc_pairwise (l : List Item) :
    List.Pairwise (fun a b : Item => b.price ≤ a.price)
      (sortByPriceDesc l) := by
  induction l with
  | nil => simp [sortByPriceDesc]
  | cons x xs ih => exact insertByPriceDesc_pairwise x _ ih

theorem insertByPriceDesc_filter (x : Item) (l : List Item) (p : Nat) :
    (insertByPriceDesc x l).filter (fun a => a.price == p) =
      if x.price = p then
        x :: l.filter (fun a => a.price == p)
      else l.filter (fun a => a.price == p) := by
  induction l with
  | nil =>
      by_cases h : x.price = p <;> simp [insertByPriceDesc, h]
  | cons y ys ih =>
      by_cases hle : y.price ≤ x.price
      · rw [show insertByPriceDesc x (y :: ys) = x :: y :: ys from by
          simp [insertByPriceDesc, hle]]
        by_cases h : x.price = p <;> simp [List.filter_cons, h]
      · rw [show insertByPriceDesc x (y :: ys) = y :: insertByPriceDesc x ys
          from by simp [insertByPriceDesc, hle]]
        have hyx : x.price < y.price := lt_of_not_le hle
        by_cases hx : x.price = p
        · have hy : ¬ y.price = p := by omega
          simp [List.filter_cons, hx, hy, ih]
        · by_cases hy : y.price = p <;> simp [List.filter_cons, hx, hy, ih]

theorem sortByPriceDesc_filter (l : List Item) (p : Nat) :
    (sortByPriceDesc l).filter (fun a => a.price == p) =
      l.filter (fun a => a.price == p) := by
  induction l with
  | nil => rfl
  | cons x xs ih =>
      simp only [sortByPriceDesc]
      rw [insertByPriceDesc_filter]
      by_cases h : x.price = p <;> simp [List.filter_cons, h, ih]

/-- Claim C5: `topN` returns the first `n` items of the list sorted by
price descending, and the sort is stable under price ties: it is a
permutation of the input, sorted non-increasingly by price, and for
every price the items of that price appear in their original flattening
order. -/
theorem C5_top_stable_sort (items : List Item) (n : Nat) :
    top_selected items n = (sortByPriceDesc items).take n ∧
    (sortByPriceDesc items).Perm items ∧
    List.Pairwise (fun a b : Item => b.price ≤ a.price)
      (sortByPriceDesc items) ∧
    ∀ p, (sortByPriceDesc items).filter (fun a => a.price == p) =
      items.filter (fun a => a.price == p) :=
  ⟨rfl, sortByPriceDesc_perm items, sortByPriceDesc_pairwise items,
   fun p => sortByPriceDesc_filter items p⟩

/-! Section: Claim C6 (statistics) -/

theorem shop_total_aux (l : List Item) (a : Nat) :
    l.foldl (fun a i => a + i.price) a = a + (l.map Item.price).sum := by
  induction l generalizing a with
  | nil => simp
  | cons i rest ih => simp [List.foldl_cons, ih, Nat.add_assoc]

theorem maxFold_spec (l : List Item) (acc : Item) :
    ∃ l₁ l₂,
      acc :: l =
        l₁ ++ (List.foldl (fun a y => if a.price < y.price then y else a)
          acc l) :: l₂ ∧
      (∀ x ∈ l₁, x.price <
        (List.foldl (fun a y => if a.price < y.price then y else a)
          acc l).price) ∧
      ∀ x ∈ acc :: l, x.price ≤
        (List.foldl (fun a y => if a.price < y.price then y else a)
          acc l).price := by
  induction l generalizing acc with
  | nil =>
      refine ⟨[], [], rfl, by simp, ?_⟩
      intro x hx
      rcases List.mem_cons.mp hx with hx | hx
      · exact hx ▸ le_refl _
      · cases hx
  | cons y ys ih =>
      by_cases h : acc.price < y.price
      · obtain ⟨l₁, l₂, he, hlt, hle⟩ := ih y
        rw [List.foldl_cons, if_pos h]
        refine ⟨acc :: l₁, l₂, ?_, ?_, ?_⟩
        · rw [List.cons_append, ← he]
        · intro x hx
          rcases List.mem_cons.mp hx with hx | hx
          · have hy : y.price ≤ _ := hle y (List.mem_cons_self y ys)
            exact hx ▸ lt_of_lt_of_le h hy
          · exact hlt x hx
        · intro x hx
          rcases List.mem_cons.mp hx with hx | hx
          · have hy : y.price ≤ _ := hle y (List.mem_cons_self y ys)
            exact hx ▸ le_of_lt (lt_of_lt_of_le h hy)
          · exact hle x hx
      · obtain ⟨l₁, l₂, he, hlt, hle⟩ := ih acc
        rw [List.foldl_cons, if_neg h]
        have hy : y.price ≤ acc.price := le_of_not_lt h
        have hacc : acc.price ≤ _ := hle acc (List.mem_cons_self acc ys)
        cases l₁ with
        | nil =>
            rw [List.nil_append] at he
            injection he with h1 h2
            refine ⟨[], y :: ys, ?_, by simp, ?_⟩
            · rw [List.nil_append, ← h1]
            · intro x hx
              rcases List.mem_cons.mp hx with hx | hx
              · exact hx ▸ hacc
              · rcases List.mem_cons.mp hx with hx2 | hx2
                · exact hx2 ▸ le_trans hy hacc
                · exact hle x (List.mem_cons_of_mem _ hx2)
        | cons a l₁t =>
            rw [List.cons_append] at he
            injection he with h1 h2
            subst h1
            have haccm := hlt acc (List.mem_cons_self _ _)
            refine ⟨acc :: y :: l₁t, l₂, ?_, ?_, ?_⟩
            · conv_lhs => rw [h2]
              simp only [List.cons_append]
            · intro x hx
              rcases List.mem_cons.mp hx with hx | hx
              · exact hx ▸ haccm
              · rcases List.mem_cons.mp hx with hx2 | hx2
                · exact hx2 ▸ lt_of_le_of_lt hy haccm
                · exact hlt x (List.mem_cons_of_mem _ hx2)
            · intro x hx
              rcases List.mem_cons.mp hx with hx | hx
              · exact hx ▸ hacc
              · rcases List.mem_cons.mp hx with hx2 | hx2
                · exact hx2 ▸ le_trans hy hacc
                · exact hle x (List.mem_cons_of_mem _ hx2)

/-- Claim C6 (amended): for every non-empty item list, totalPrice is the
sum of all item prices (Python integer arithmetic, exact); the reported
averagePrice is the IEEE binary64 result of dividing totalPrice by the
count — always a representable value, and equal to the exact quotient
`shop_avg` (which satisfies `shop_avg · count = total`) exactly when
that quotient is itself representable, not in general; and the most
expensive item is the first item in flattening order among those of
maximal price. -/
theorem C6_statistics (items : List Item) (h : items ≠ []) :
    shop_total items = (items.map Item.price).sum ∧
    shop_avg items * (items.length : ℚ) = (shop_total items : ℚ) ∧
    (∀ x : ℚ, floatDivResult (shop_avg items) x → isFin64 x) ∧
    (∀ x : ℚ, floatDivResult (shop_avg items) x →
      isFin64 (shop_avg items) → x = shop_avg items) ∧
    ∃ m l₁ l₂, maxByPrice items = some m ∧ items = l₁ ++ m :: l₂ ∧
      (∀ x ∈ l₁, x.price < m.price) ∧ ∀ x ∈ items, x.price ≤ m.price := by
  have hlen : (items.length : ℚ) ≠ 0 := by
    exact_mod_cast fun hz => h (List.length_eq_zero.mp hz)
  refine ⟨by simpa using shop_total_aux items 0, div_mul_cancel₀ _ hlen,
    fun x hx => hx.1, fun x hx hq => ?_, ?_⟩
  · have h0 := hx.2 (shop_avg items) hq
    rw [sub_self, abs_zero] at h0
    have h1 : |x - shop_avg items| = 0 := le_antisymm h0 (abs_nonneg _)
    exact sub_eq_zero.mp (abs_eq_zero.mp h1)
  · cases items with
    | nil => exact absurd rfl h
    | cons i rest =>
        obtain ⟨l₁, l₂, he, hlt, hle⟩ := maxFold_spec rest i
        exact ⟨_, l₁, l₂, rfl, he, hlt, fun x hx => hle x hx⟩

theorem C6_statistics_witness :
    demoAvgItems ≠ [] ∧
    shop_total demoAvgItems = (demoAvgItems.map Item.price).sum ∧
    shop_avg demoAvgItems * (demoAvgItems.length : ℚ) =
      (shop_total demoAvgItems : ℚ) ∧
    floatDivResult (shop_avg demoAvgItems) 200 ∧
    isFin64 (shop_avg demoAvgItems) ∧
    (200 : ℚ) = shop_avg demoAvgItems ∧
    ∃ m l₁ l₂, maxByPrice demoAvgItems = some m ∧
      demoAvgItems = l₁ ++ m :: l₂ ∧
      (∀ x ∈ l₁, x.price < m.price) ∧
      ∀ x ∈ demoAvgItems, x.price ≤ m.price := by
  have hth := C6_statistics demoAvgItems (by decide)
  have havg : shop_avg demoAvgItems = 200 := by
    unfold shop_avg
    rw [show shop_total demoAvgItems = 400 from by decide,
      show demoAvgItems.length = 2 from by decide]
    norm_num
  have hfin : isFin64 (shop_avg demoAvgItems) :=
    ⟨200, 0, by norm_num, by rw [havg]; norm_num⟩
  have hfd : floatDivResult (shop_avg demoAvgItems) 200 := by
    refine ⟨⟨200, 0, by norm_num, by norm_num⟩, fun y hy => ?_⟩
    rw [havg, sub_self, abs_zero]
    exact abs_nonneg _
  exact ⟨by decide, hth.1, hth.2.1, hfd, hfin,
    hth.2.2.2.1 200 hfd hfin, hth.2.2.2.2⟩

/-- Counterexample to claim C6 as stated: at forty-nine items totalling
one unit, the exact quotient totalPrice / count is 1/49, which is not a
representable binary64 value; since the reported averagePrice is always
representable (conjunct three of the claim theorem), it cannot equal
totalPrice divided by the count exactly at this input. -/
theorem C6_average_inexact :
    fortyNineItems.length = 49 ∧
    shop_total fortyNineItems = 1 ∧
    shop_avg fortyNineItems = 1 / 49 ∧
    ¬ isFin64 (shop_avg fortyNineItems) := by
  have hlen : fortyNineItems.length = 49 := by decide
  have htot : shop_total fortyNineItems = 1 := by decide
  have havg : shop_avg fortyNineItems = 1 / 49 := by
    unfold shop_avg
    rw [htot, hlen]
    norm_num
  refine ⟨hlen, htot, havg, ?_⟩
  rw [havg]
  rintro ⟨m, e, hb, hx⟩
  rcases e with n | n
  · rw [Int.ofNat_eq_natCast, zpow_natCast] at hx
    have h2 : (1 : ℤ) = m * 2 ^ n * 49 := by
      have : ((m * 2 ^ n * 49 : ℤ) : ℚ) = 1 := by
        push_cast
        field_simp at hx
        linarith
      exact_mod_cast this.symm
    have h3 : (49 : ℤ) ∣ 1 := ⟨m * 2 ^ n, by linarith⟩
    have h4 := Int.le_of_dvd one_pos h3
    norm_num at h4
  · rw [zpow_negSucc] at hx
    have h2 : (2 ^ (n + 1) : ℤ) = 49 * m := by
      have : ((2 ^ (n + 1) : ℤ) : ℚ) = ((49 * m : ℤ) : ℚ) := by
        push_cast
        field_simp at hx
        linarith
      exact_mod_cast this
    have h7 : (7 : ℤ) ∣ 2 ^ (n + 1) := ⟨7 * m, by rw [h2]; ring⟩
    have h7n : (7 : ℕ) ∣ 2 ^ (n + 1) := by exact_mod_cast h7
    have h72 : (7 : ℕ) ∣ 2 :=
      (Nat.Prime.dvd_of_dvd_pow (by norm_num)) h7n
    norm_num at h72

/-! Section: Claim C7 (search) -/

/-- Claim C7: search returns exactly the items whose name contains the
query as a case-insensitive substring, as a sublist of the flattening
order (no ranking); an empty match set yields the distinct no-match
message (different from the no-catalog message), never an error; and
searching "jin" over "Sung Jin-Woo" and "Cha Hae-In" returns only the
former. -/
theorem C7_search (items : List Item) (q : String) (d : Doc) :
    (∀ x, x ∈ search_found items q ↔
      x ∈ items ∧ (pyLower q).data <:+: (pyLower x.name).data) ∧
    (search_found items q).Sublist items ∧
    (get_all_items d ≠ [] → search_found (get_all_items d) q = [] →
      search_items d q = "😕 По запросу «" ++ q ++ "» ничего не найдено.") ∧
    (get_all_items d = [] →
      search_items d q = "😢 Нет данных для поиска.") ∧
    search_found
        [⟨"Sung Jin-Woo", 1800, "outfit"⟩, ⟨"Cha Hae-In", 1800, "outfit"⟩]
        "jin" =
      [⟨"Sung Jin-Woo", 1800, "outfit"⟩] := by
  refine ⟨fun x => ?_, ?_, fun hne hnf => ?_, fun he => ?_, by decide⟩
  · simp [search_found, List.mem_filter, nameMatches, occursIn_iff]
  · unfold search_found
    exact List.filter_sublist items
  · simp [search_items, hnf, List.isEmpty_iff, hne]
  · simp [search_items, he]

theorem C7_search_witness :
    (get_all_items demoSearchDoc ≠ [] ∧
      search_found (get_all_items demoSearchDoc) "zzz" = [] ∧
      search_items demoSearchDoc "zzz" =
        "😕 По запросу «" ++ "zzz" ++ "» ничего не найдено.") ∧
    (get_all_items emptyCatalogDoc = [] ∧
      search_items emptyCatalogDoc "zzz" = "😢 Нет данных для поиска.") :=
  ⟨⟨by decide, by decide,
    (C7_search (get_all_items demoSearchDoc) "zzz" demoSearchDoc).2.2.1
      (by decide) (by decide)⟩,
   ⟨by decide,
    (C7_search [] "zzz" emptyCatalogDoc).2.2.2.1 (by decide)⟩⟩

end FortniteShopBot
